import Mathlib

/-!
Verification of the interactive terminal selector in `src/main.rs` (the
`select_option` / `draw_menu` / `clear_area` / `cleanup` functions).

Shallow embedding conventions:
* Terminal side effects are recorded as an explicit trace of `Action`s.
* `u16` values are `Nat`s; every arithmetic operation the Rust code performs
  on a `u16` is taken modulo 65536 (the wrapping semantics of `as u16` casts
  and of release-mode `u16` addition).
* The stream of results of successive `read()` calls is the sole modelled
  failure source: it is a list of `Except String Event`, an `Except.error`
  standing for a failed read. All `.expect(..)` panics are modelled by the
  `Outcome.panicked` result carrying the expect message; the trace of a
  panicked run is everything executed before the panic.
* An exhausted input list models a `read()` that blocks forever
  (`Outcome.blocked`).
-/

namespace Xrpick

/-- Modifier flags attached to a key event (crossterm `KeyModifiers`),
modelled as a bit word. -/
structure KeyModifiers where
  bits : Nat
deriving DecidableEq

/-- The `modifiers.is_empty()` test of the source. -/
def KeyModifiers.is_empty (m : KeyModifiers) : Bool :=
  m.bits == 0

/-- The key codes the source distinguishes; `Other` stands for every other
crossterm `KeyCode` variant, all of which fall into the `_ => {}` arm. -/
inductive KeyCode where
  | Up
  | Down
  | Enter
  | Esc
  | Char (c : Char)
  | Other
deriving DecidableEq

/-- A key event: code plus modifiers (the source ignores the other fields
via the `..` pattern). -/
structure KeyEvent where
  code : KeyCode
  modifiers : KeyModifiers
deriving DecidableEq

/-- A terminal event delivered by `read()`: a key event, or any non-key
event (resize, mouse, ...), which the `if let Event::Key` pattern skips. -/
inductive Event where
  | Key (e : KeyEvent)
  | NonKey
deriving DecidableEq

/-- One terminal side effect performed by the program. -/
inductive Action where
  | enableRaw
  | hideCursor
  | getPosition
  | readEvent
  | moveTo (col row : Nat)
  | clearLine
  | print (s : String)
  | flush
  | showCursor
  | disableRaw
deriving DecidableEq

/-- How one run of `select_option` ends: a normal return value, a panic
(with the `.expect` message), or blocking forever on `read()`. -/
inductive Outcome where
  | returned (r : Option String)
  | panicked (msg : String)
  | blocked
deriving DecidableEq

/-- Result of a run: its outcome and the trace of terminal actions. -/
structure RunResult where
  outcome : Outcome
  trace : List Action
deriving DecidableEq

/-- The `let num_lines = 1 + options.len() as u16` computation of
`select_option`, in wrapping 16-bit arithmetic. -/
def num_lines (options : List String) : Nat :=
  (1 + options.length % 65536) % 65536

/-- The `clear_area` function: for `i in 0..num_lines` move to column 0 of
row `start_pos.1 + i` (u16 addition) and clear that line, then reset the
cursor to the anchor row and flush. `start_pos` is (column, row); the row is
the second component here where the Rust tuple uses `.1`. -/
def clear_area (start_pos : Nat × Nat) (num_lines : Nat) : List Action :=
  (((List.range num_lines).map fun i =>
      [Action.moveTo 0 ((start_pos.2 + i) % 65536), Action.clearLine]).flatten)
    ++ [Action.moveTo 0 start_pos.2, Action.flush]

/-- The option-printing loop of `draw_menu`: `for (i, opt) in
options.iter().enumerate()`, printing a marker or two blanks before each
option and incrementing `current_row` (u16) after each line. -/
def drawOptions (selected_index : Nat) : Nat → Nat → List String → List Action
  | _, _, [] => []
  | row, i, opt :: rest =>
    let pfx := if i = selected_index then "> " else "  "
    Action.moveTo 0 row :: Action.print pfx :: Action.print opt ::
      drawOptions selected_index ((row + 1) % 65536) (i + 1) rest

/-- The `draw_menu` function: title on the anchor row, then the options. -/
def draw_menu (start_pos : Nat × Nat) (title : String) (options : List String)
    (selected_index : Nat) : List Action :=
  Action.moveTo 0 start_pos.2 :: Action.print title ::
    (drawOptions selected_index ((start_pos.2 + 1) % 65536) 0 options
      ++ [Action.flush])

/-- The `cleanup` function: show the cursor, then disable raw mode. -/
def cleanup : List Action :=
  [Action.showCursor, Action.disableRaw]

/-- What one key event does to the loop: keep looping with a (possibly
updated) `selected_index`, break out via Enter, or cancel via bare q or
Escape. -/
inductive LoopCmd where
  | cont (selected_index : Nat)
  | accepted
  | cancelled
deriving DecidableEq

/-- The `match code` block of the selection loop, as a pure function of the
current index and the key event. -/
def handleKey (options : List String) (selected_index : Nat) (k : KeyEvent) :
    LoopCmd :=
  match k.code with
  | KeyCode.Up =>
      LoopCmd.cont (if selected_index > 0 then selected_index - 1 else selected_index)
  | KeyCode.Down =>
      LoopCmd.cont
        (if selected_index < options.length - 1 then selected_index + 1 else selected_index)
  | KeyCode.Enter => LoopCmd.accepted
  | KeyCode.Char c =>
      if c == 'q' && k.modifiers.is_empty then LoopCmd.cancelled
      else LoopCmd.cont selected_index
  | KeyCode.Esc => LoopCmd.cancelled
  | KeyCode.Other => LoopCmd.cont selected_index

/-- The `if let Event::Key(KeyEvent { .. })` filter: non-key events skip the
match entirely and fall through to the redraw. -/
def eventCmd (options : List String) (selected_index : Nat) : Event → LoopCmd
  | Event.Key k => handleKey options selected_index k
  | Event.NonKey => LoopCmd.cont selected_index

/-- The `loop` of `select_option`, consuming one `read()` result per
iteration. A failed read panics (message of the `.expect`) with no cleanup;
Enter breaks out, clears, cleans up and indexes `options[selected_index]`
(panicking after cleanup when out of bounds, as slice indexing would);
bare q and Escape clear, clean up and return `None`; every other event
falls through to the clear-and-redraw at the bottom of the loop body. -/
def selectLoop (title : String) (options : List String) (start_pos : Nat × Nat)
    (num_lines selected_index : Nat) :
    List (Except String Event) → RunResult
  | [] => ⟨Outcome.blocked, []⟩
  | Except.error _ :: _ =>
      ⟨Outcome.panicked "Failed to read event", [Action.readEvent]⟩
  | Except.ok ev :: rest =>
    match eventCmd options selected_index ev with
    | LoopCmd.cont j =>
        let r := selectLoop title options start_pos num_lines j rest
        ⟨r.outcome,
          Action.readEvent ::
            (clear_area start_pos num_lines
              ++ (draw_menu start_pos title options j ++ r.trace))⟩
    | LoopCmd.accepted =>
        let tr := Action.readEvent :: (clear_area start_pos num_lines ++ cleanup)
        match options.get? selected_index with
        | some s => ⟨Outcome.returned (some s), tr⟩
        | none => ⟨Outcome.panicked "index out of bounds", tr⟩
    | LoopCmd.cancelled =>
        ⟨Outcome.returned none,
          Action.readEvent :: (clear_area start_pos num_lines ++ cleanup)⟩

/-- The `select_option` function. `start_pos` is the anchor position the
modelled `position()` call reports; `inputs` is the stream of `read()`
results. An empty options list returns `None` before touching the
terminal; otherwise raw mode is enabled, the cursor hidden, the anchor
captured, the region cleared and drawn once, and the loop entered with
`selected_index = 0`. -/
def select_option (title : String) (options : List String)
    (start_pos : Nat × Nat) (inputs : List (Except String Event)) : RunResult :=
  if options.isEmpty then
    ⟨Outcome.returned none, []⟩
  else
    let nl := num_lines options
    let selected_index : Nat := 0
    let r := selectLoop title options start_pos nl selected_index inputs
    ⟨r.outcome,
      [Action.enableRaw, Action.hideCursor, Action.getPosition]
        ++ (clear_area start_pos nl
          ++ (draw_menu start_pos title options selected_index ++ r.trace))⟩

/-! ### Helper lemmas about the traces -/

lemma mem_clear_area {a : Action} {p : Nat × Nat} {n : Nat}
    (h : a ∈ clear_area p n) :
    (∃ c r, a = Action.moveTo c r) ∨ a = Action.clearLine ∨ a = Action.flush := by
  simp only [clear_area, List.mem_append, List.mem_flatten, List.mem_map] at h
  rcases h with ⟨l, ⟨i, hi, rfl⟩, hmem⟩ | h
  · simp only [List.mem_cons, List.not_mem_nil, or_false] at hmem
    rcases hmem with rfl | rfl
    · exact Or.inl ⟨0, _, rfl⟩
    · exact Or.inr (Or.inl rfl)
  · simp only [List.mem_cons, List.not_mem_nil, or_false] at h
    rcases h with rfl | rfl
    · exact Or.inl ⟨0, _, rfl⟩
    · exact Or.inr (Or.inr rfl)

lemma clear_area_count_zero {a : Action} (p : Nat × Nat) (n : Nat)
    (h1 : ∀ c r, a ≠ Action.moveTo c r) (h2 : a ≠ Action.clearLine)
    (h3 : a ≠ Action.flush) : (clear_area p n).count a = 0 := by
  rw [List.count_eq_zero]
  intro hmem
  rcases mem_clear_area hmem with ⟨c, r, rfl⟩ | rfl | rfl
  · exact h1 c r rfl
  · exact h2 rfl
  · exact h3 rfl

lemma mem_drawOptions {a : Action} {idx : Nat} :
    ∀ (opts : List String) (row i : Nat), a ∈ drawOptions idx row i opts →
      (∃ c r, a = Action.moveTo c r) ∨ ∃ s, a = Action.print s := by
  intro opts
  induction opts with
  | nil => intro row i h; simp [drawOptions] at h
  | cons o os ih =>
      intro row i h
      simp only [drawOptions, List.mem_cons] at h
      rcases h with rfl | rfl | rfl | h
      · exact Or.inl ⟨0, row, rfl⟩
      · exact Or.inr ⟨_, rfl⟩
      · exact Or.inr ⟨_, rfl⟩
      · exact ih _ _ h

lemma draw_menu_count_zero {a : Action} (p : Nat × Nat) (title : String)
    (options : List String) (idx : Nat)
    (h1 : ∀ c r, a ≠ Action.moveTo c r) (h2 : ∀ s, a ≠ Action.print s)
    (h3 : a ≠ Action.flush) :
    (draw_menu p title options idx).count a = 0 := by
  rw [List.count_eq_zero]
  intro hmem
  simp only [draw_menu, List.mem_cons, List.mem_append, List.not_mem_nil,
    or_false] at hmem
  rcases hmem with rfl | rfl | h | rfl
  · exact h1 _ _ rfl
  · exact h2 _ rfl
  · rcases mem_drawOptions _ _ _ h with ⟨c, r, rfl⟩ | ⟨s, rfl⟩
    · exact h1 c r rfl
    · exact h2 s rfl
  · exact h3 rfl

lemma clear_area_count_enableRaw (p : Nat × Nat) (n : Nat) :
    (clear_area p n).count Action.enableRaw = 0 :=
  clear_area_count_zero p n (by intro c r h; cases h) (by intro h; cases h)
    (by intro h; cases h)

lemma clear_area_count_hideCursor (p : Nat × Nat) (n : Nat) :
    (clear_area p n).count Action.hideCursor = 0 :=
  clear_area_count_zero p n (by intro c r h; cases h) (by intro h; cases h)
    (by intro h; cases h)

lemma clear_area_count_disableRaw (p : Nat × Nat) (n : Nat) :
    (clear_area p n).count Action.disableRaw = 0 :=
  clear_area_count_zero p n (by intro c r h; cases h) (by intro h; cases h)
    (by intro h; cases h)

lemma clear_area_count_showCursor (p : Nat × Nat) (n : Nat) :
    (clear_area p n).count Action.showCursor = 0 :=
  clear_area_count_zero p n (by intro c r h; cases h) (by intro h; cases h)
    (by intro h; cases h)

lemma draw_menu_count_enableRaw (p : Nat × Nat) (t : String)
    (options : List String) (idx : Nat) :
    (draw_menu p t options idx).count Action.enableRaw = 0 :=
  draw_menu_count_zero p t options idx (by intro c r h; cases h)
    (by intro s h; cases h) (by intro h; cases h)

lemma draw_menu_count_hideCursor (p : Nat × Nat) (t : String)
    (options : List String) (idx : Nat) :
    (draw_menu p t options idx).count Action.hideCursor = 0 :=
  draw_menu_count_zero p t options idx (by intro c r h; cases h)
    (by intro s h; cases h) (by intro h; cases h)

lemma draw_menu_count_disableRaw (p : Nat × Nat) (t : String)
    (options : List String) (idx : Nat) :
    (draw_menu p t options idx).count Action.disableRaw = 0 :=
  draw_menu_count_zero p t options idx (by intro c r h; cases h)
    (by intro s h; cases h) (by intro h; cases h)

lemma draw_menu_count_showCursor (p : Nat × Nat) (t : String)
    (options : List String) (idx : Nat) :
    (draw_menu p t options idx).count Action.showCursor = 0 :=
  draw_menu_count_zero p t options idx (by intro c r h; cases h)
    (by intro s h; cases h) (by intro h; cases h)

lemma handleKey_cont_lt {options : List String} {idx j : Nat} {k : KeyEvent}
    (h : idx < options.length) (hk : handleKey options idx k = LoopCmd.cont j) :
    j < options.length := by
  rcases k with ⟨code, m⟩
  cases code with
  | Up =>
      simp only [handleKey] at hk
      injection hk with hj
      split at hj <;> omega
  | Down =>
      simp only [handleKey] at hk
      injection hk with hj
      split at hj <;> omega
  | Enter => simp [handleKey] at hk
  | Char c =>
      simp only [handleKey] at hk
      split at hk
      · cases hk
      · injection hk with hj; omega
  | Esc => simp [handleKey] at hk
  | Other =>
      simp only [handleKey] at hk
      injection hk with hj
      omega

lemma eventCmd_cont_lt {options : List String} {idx j : Nat} {ev : Event}
    (h : idx < options.length) (hk : eventCmd options idx ev = LoopCmd.cont j) :
    j < options.length := by
  cases ev with
  | Key k => exact handleKey_cont_lt h hk
  | NonKey =>
      simp only [eventCmd] at hk
      injection hk with hj
      omega

lemma cleanup_count_disableRaw : cleanup.count Action.disableRaw = 1 := by decide

lemma cleanup_count_showCursor : cleanup.count Action.showCursor = 1 := by decide

lemma cleanup_count_enableRaw : cleanup.count Action.enableRaw = 0 := by decide

lemma cleanup_count_hideCursor : cleanup.count Action.hideCursor = 0 := by decide

/-- Release discipline of the selection loop itself: its trace never enables
raw mode or hides the cursor again; when the loop returns a value it has
released the guard exactly once; when it panics on a failed read it has not
released the guard at all. -/
lemma selectLoop_counts (title : String) (options : List String)
    (pos : Nat × Nat) (nl : Nat) :
    ∀ (inputs : List (Except String Event)) (idx : Nat),
      ((selectLoop title options pos nl idx inputs).trace.count Action.enableRaw = 0
        ∧ (selectLoop title options pos nl idx inputs).trace.count Action.hideCursor = 0)
      ∧ (∀ v, (selectLoop title options pos nl idx inputs).outcome = Outcome.returned v →
          (selectLoop title options pos nl idx inputs).trace.count Action.disableRaw = 1
            ∧ (selectLoop title options pos nl idx inputs).trace.count Action.showCursor = 1)
      ∧ ((selectLoop title options pos nl idx inputs).outcome
            = Outcome.panicked "Failed to read event" →
          (selectLoop title options pos nl idx inputs).trace.count Action.disableRaw = 0
            ∧ (selectLoop title options pos nl idx inputs).trace.count Action.showCursor = 0) := by
  intro inputs
  induction inputs with
  | nil =>
      intro idx
      refine ⟨⟨rfl, rfl⟩, ?_, ?_⟩ <;> intro h <;> simp [selectLoop] at *
  | cons e rest ih =>
      intro idx
      cases e with
      | error msg =>
          refine ⟨⟨?_, ?_⟩, ?_, ?_⟩ <;>
            simp [selectLoop, List.count_cons]
      | ok ev =>
          rcases hcmd : eventCmd options idx ev with j | _ | _
          · have ihj := ih j
            refine ⟨⟨?_, ?_⟩, ?_, ?_⟩ <;>
              simp only [selectLoop, hcmd, List.count_cons, List.count_append,
                clear_area_count_enableRaw, clear_area_count_hideCursor,
                clear_area_count_disableRaw, clear_area_count_showCursor,
                draw_menu_count_enableRaw, draw_menu_count_hideCursor,
                draw_menu_count_disableRaw, draw_menu_count_showCursor]
            · simpa using ihj.1.1
            · simpa using ihj.1.2
            · intro v hv
              have := ihj.2.1 v hv
              constructor <;> simp <;> omega
            · intro hv
              have := ihj.2.2 hv
              constructor <;> simp <;> omega
          · rcases hget : options[idx]? with _ | s <;>
              refine ⟨⟨?_, ?_⟩, ?_, ?_⟩ <;>
                simp [selectLoop, hcmd, hget, List.count_cons, List.count_append,
                  clear_area_count_enableRaw, clear_area_count_hideCursor,
                  clear_area_count_disableRaw, clear_area_count_showCursor,
                  cleanup_count_disableRaw, cleanup_count_showCursor,
                  cleanup_count_enableRaw, cleanup_count_hideCursor]
          · refine ⟨⟨?_, ?_⟩, ?_, ?_⟩ <;>
              simp [selectLoop, hcmd, List.count_cons, List.count_append,
                clear_area_count_enableRaw, clear_area_count_hideCursor,
                clear_area_count_disableRaw, clear_area_count_showCursor,
                cleanup_count_disableRaw, cleanup_count_showCursor,
                cleanup_count_enableRaw, cleanup_count_hideCursor]

/-- Clamping is preserved by the loop: starting from an in-range index the
loop can never reach the out-of-bounds indexing panic. -/
lemma selectLoop_no_oob (title : String) (options : List String)
    (pos : Nat × Nat) (nl : Nat) :
    ∀ (inputs : List (Except String Event)) (idx : Nat), idx < options.length →
      (selectLoop title options pos nl idx inputs).outcome
        ≠ Outcome.panicked "index out of bounds" := by
  intro inputs
  induction inputs with
  | nil => intro idx _ h; simp [selectLoop] at h
  | cons e rest ih =>
      intro idx hidx
      cases e with
      | error msg => simp [selectLoop]
      | ok ev =>
          rcases hcmd : eventCmd options idx ev with j | _ | _
          · have hj : j < options.length := eventCmd_cont_lt hidx hcmd
            simp only [selectLoop, hcmd]
            exact ih j hj
          · have hget := List.getElem?_eq_getElem hidx
            simp [selectLoop, hcmd, hget]
          · simp [selectLoop, hcmd]

/-- Shape of the option lines emitted by the drawing loop: line `j` of the
remaining options goes to row `row + j` (u16 addition) and carries the
marker exactly when its absolute index `i + j` is the selected one. -/
lemma drawOptions_eq (idx : Nat) :
    ∀ (opts : List String) (row i : Nat), row < 65536 →
      drawOptions idx row i opts =
        (((List.range opts.length).map fun j =>
          [Action.moveTo 0 ((row + j) % 65536),
           Action.print (if i + j = idx then "> " else "  "),
           Action.print (opts.getD j "")]).flatten) := by
  intro opts
  induction opts with
  | nil => intro row i h; simp [drawOptions]
  | cons o os ih =>
      intro row i hrow
      have h1 : ((row + 1) % 65536) < 65536 := Nat.mod_lt _ (by omega)
      simp only [drawOptions, ih ((row + 1) % 65536) (i + 1) h1,
        List.length_cons, List.range_succ_eq_map, List.map_cons,
        List.flatten_cons, List.map_map, Nat.add_zero, Nat.mod_eq_of_lt hrow,
        List.getD_cons_zero, List.cons_append, List.nil_append]
      refine congrArg _ (congrArg _ (congrArg _ (congrArg _ ?_)))
      refine List.map_congr_left ?_
      intro j hj
      simp only [Function.comp_apply, Nat.succ_eq_add_one, Nat.mod_add_mod,
        List.getD_cons_succ]
      have e1 : row + (j + 1) = row + 1 + j := by omega
      have e2 : i + (j + 1) = i + 1 + j := by omega
      rw [e1, e2]

/-- In the range [0, N) there is exactly one index equal to a given idx < N. -/
lemma countP_beq_range {idx N : Nat} (h : idx < N) :
    ((List.range N).countP fun i => i == idx) = 1 := by
  induction N with
  | zero => omega
  | succ n ihn =>
      rw [List.range_succ, List.countP_append]
      rcases Nat.lt_or_ge idx n with hlt | hge
      · rw [ihn hlt]
        have hne : (n == idx) = false := by
          simp only [beq_eq_false_iff_ne, ne_eq]
          omega
        simp [List.countP_cons, hne]
      · have hidx : idx = n := by omega
        subst hidx
        have h0 : (List.range idx).countP (fun i => i == idx) = 0 := by
          rw [List.countP_eq_zero]
          intro a ha
          simp only [List.mem_range] at ha
          simp only [beq_eq_false_iff_ne, ne_eq, Bool.not_eq_true]
          omega
        simp [h0, List.countP_cons]

/-- The cleared region spans exactly `num_lines` terminal lines: one
clear-line action per line. -/
lemma clear_area_count_clearLine (p : Nat × Nat) (n : Nat) :
    (clear_area p n).count Action.clearLine = n := by
  induction n with
  | zero => simp [clear_area]
  | succ k ihk =>
      simp only [clear_area, List.range_succ, List.map_append,
        List.flatten_append, List.count_append] at ihk ⊢
      simp only [List.count_cons, List.count_nil] at ihk ⊢
      simp at ihk ⊢
      omega

/-- C5: calling select with an empty options list returns the no-selection
outcome (None) immediately, with an empty action trace: raw mode is never
enabled, the cursor never hidden, no terminal operation at all happens. -/
theorem C5_empty_short_circuit (title : String) (pos : Nat × Nat)
    (inputs : List (Except String Event)) :
    select_option title [] pos inputs = ⟨Outcome.returned none, []⟩ := rfl

/-- C1 counterexample: on the error exit path the claim fails. Running
select on a one-element list with a failing first read ends in the panic of
the expect call: raw mode was enabled (one acquire) but the trace contains
no disable-raw and no show-cursor action, so the guard release is not
invoked on this exit path. -/
theorem C1_counterexample :
    (select_option "t" ["a"] (0, 0) [Except.error "boom"]).outcome
        = Outcome.panicked "Failed to read event"
  ∧ (select_option "t" ["a"] (0, 0) [Except.error "boom"]).trace.count
        Action.enableRaw = 1
  ∧ (select_option "t" ["a"] (0, 0) [Except.error "boom"]).trace.count
        Action.disableRaw = 0
  ∧ (select_option "t" ["a"] (0, 0) [Except.error "boom"]).trace.count
        Action.showCursor = 0 := by
  decide

/-- C1 (amended): for every non-empty options list, whenever select returns
normally (Enter) or by cancellation (q or Escape) the guard release runs
exactly once per acquire: the trace holds exactly one enable-raw, one
disable-raw and one show-cursor action. On an input-read error, however,
the process panics and the guard is never released: the trace holds no
disable-raw and no show-cursor action. -/
theorem C1_guard_release (title : String) (options : List String)
    (pos : Nat × Nat) (inputs : List (Except String Event))
    (h : options ≠ []) :
    (∀ v, (select_option title options pos inputs).outcome = Outcome.returned v →
        (select_option title options pos inputs).trace.count Action.enableRaw = 1
      ∧ (select_option title options pos inputs).trace.count Action.disableRaw = 1
      ∧ (select_option title options pos inputs).trace.count Action.showCursor = 1)
  ∧ ((select_option title options pos inputs).outcome
        = Outcome.panicked "Failed to read event" →
        (select_option title options pos inputs).trace.count Action.disableRaw = 0
      ∧ (select_option title options pos inputs).trace.count Action.showCursor = 0) := by
  obtain ⟨o, os, rfl⟩ := List.exists_cons_of_ne_nil h
  have hc := selectLoop_counts title (o :: os) pos (num_lines (o :: os)) inputs 0
  have hsel : select_option title (o :: os) pos inputs
      = ⟨(selectLoop title (o :: os) pos (num_lines (o :: os)) 0 inputs).outcome,
         [Action.enableRaw, Action.hideCursor, Action.getPosition]
           ++ (clear_area pos (num_lines (o :: os))
             ++ (draw_menu pos title (o :: os) 0
               ++ (selectLoop title (o :: os) pos
                     (num_lines (o :: os)) 0 inputs).trace))⟩ := by
    simp [select_option]
  rw [hsel]
  constructor
  · intro v hv
    have h1 := hc.2.1 v hv
    refine ⟨?_, ?_, ?_⟩ <;>
      simp [List.count_cons, List.count_append, clear_area_count_enableRaw,
        clear_area_count_disableRaw, clear_area_count_showCursor,
        draw_menu_count_enableRaw, draw_menu_count_disableRaw,
        draw_menu_count_showCursor, hc.1.1, h1.1, h1.2]
  · intro hv
    have h2 := hc.2.2 hv
    constructor <;>
      simp [List.count_cons, List.count_append, clear_area_count_disableRaw,
        clear_area_count_showCursor, draw_menu_count_disableRaw,
        draw_menu_count_showCursor, h2.1, h2.2]

/-- C1 witness: a concrete run that returns via Enter releases the guard
exactly once. -/
theorem C1_guard_release_witness :
    (select_option "t" ["a"] (0, 0)
        [Except.ok (Event.Key ⟨KeyCode.Enter, ⟨0⟩⟩)]).trace.count
      Action.disableRaw = 1 :=
  ((C1_guard_release "t" ["a"] (0, 0)
      [Except.ok (Event.Key ⟨KeyCode.Enter, ⟨0⟩⟩)] (by decide)).1 (some "a")
    (by decide)).2.1

/-- C2: for every options list and in-range index, a navigation step keeps
highlighted_index inside [0, N-1]; Down at index N-1 leaves the index
unchanged (no wrap to 0) and Up at index 0 leaves it unchanged; and for
every sequence of read results the loop started at an in-range index can
never reach the out-of-range indexing panic. -/
theorem C2_clamping (title : String) (options : List String) (pos : Nat × Nat)
    (nl idx : Nat) (hidx : idx < options.length) :
    (∀ (k : KeyEvent) (j : Nat),
        handleKey options idx k = LoopCmd.cont j → j < options.length)
  ∧ (∀ m : KeyModifiers,
        handleKey options (options.length - 1) ⟨KeyCode.Down, m⟩
          = LoopCmd.cont (options.length - 1))
  ∧ (∀ m : KeyModifiers,
        handleKey options 0 ⟨KeyCode.Up, m⟩ = LoopCmd.cont 0)
  ∧ (∀ inputs : List (Except String Event),
        (selectLoop title options pos nl idx inputs).outcome
          ≠ Outcome.panicked "index out of bounds") := by
  refine ⟨?_, ?_, ?_, ?_⟩
  · intro k j hk
    exact handleKey_cont_lt hidx hk
  · intro m
    simp [handleKey]
  · intro m
    simp [handleKey]
  · intro inputs
    exact selectLoop_no_oob title options pos nl inputs idx hidx

/-- C2 witness: pressing Down at the last index of a two-element list
leaves the index at 1. -/
theorem C2_clamping_witness :
    handleKey ["a", "b"] 1 ⟨KeyCode.Down, ⟨0⟩⟩ = LoopCmd.cont 1 :=
  (C2_clamping "t" ["a", "b"] (0, 0) 3 1 (by decide)).2.1 ⟨0⟩

/-- C3: the loop starts at highlighted_index 0, and an Enter event
terminates it immediately with outcome Selected of the currently
highlighted option, the trace ending in a clear of the rendered region
followed by the guard release. -/
theorem C3_enter_selects (title : String) (options : List String)
    (pos : Nat × Nat) (h : options ≠ []) (m : KeyModifiers)
    (rest : List (Except String Event)) :
    (∀ (idx nl : Nat) (hidx : idx < options.length),
        selectLoop title options pos nl idx
            (Except.ok (Event.Key ⟨KeyCode.Enter, m⟩) :: rest)
          = ⟨Outcome.returned (some (options.get ⟨idx, hidx⟩)),
             Action.readEvent :: (clear_area pos nl ++ cleanup)⟩)
  ∧ (select_option title options pos
        (Except.ok (Event.Key ⟨KeyCode.Enter, m⟩) :: rest)).outcome
      = Outcome.returned (some (options.get ⟨0, List.length_pos.mpr h⟩)) := by
  have hloop : ∀ (idx nl : Nat) (hidx : idx < options.length),
      selectLoop title options pos nl idx
          (Except.ok (Event.Key ⟨KeyCode.Enter, m⟩) :: rest)
        = ⟨Outcome.returned (some (options.get ⟨idx, hidx⟩)),
           Action.readEvent :: (clear_area pos nl ++ cleanup)⟩ := by
    intro idx nl hidx
    have hget := List.getElem?_eq_getElem hidx
    simp [selectLoop, eventCmd, handleKey, hget]
  refine ⟨hloop, ?_⟩
  obtain ⟨o, os, rfl⟩ := List.exists_cons_of_ne_nil h
  simp [select_option, hloop 0 (num_lines (o :: os)) (by simp)]

/-- C3 witness: Enter right away on the list [a, b] yields Selected a. -/
theorem C3_enter_selects_witness :
    (select_option "t" ["a", "b"] (0, 0)
        [Except.ok (Event.Key ⟨KeyCode.Enter, ⟨0⟩⟩)]).outcome
      = Outcome.returned (some "a") := by
  have h := (C3_enter_selects "t" ["a", "b"] (0, 0) (by decide) ⟨0⟩ []).2
  simpa using h

/-- C4: cancelling via the bare q key and cancelling via Escape produce
identical run results: the same outcome Cancelled (None) and the same
trace, which clears the rendered region and then releases the guard. -/
theorem C4_cancel_equivalence (title : String) (options : List String)
    (pos : Nat × Nat) (nl idx : Nat) (m m2 : KeyModifiers)
    (hm : m.is_empty = true) (rest rest2 : List (Except String Event)) :
    selectLoop title options pos nl idx
        (Except.ok (Event.Key ⟨KeyCode.Char 'q', m⟩) :: rest)
      = selectLoop title options pos nl idx
          (Except.ok (Event.Key ⟨KeyCode.Esc, m2⟩) :: rest2)
  ∧ selectLoop title options pos nl idx
        (Except.ok (Event.Key ⟨KeyCode.Char 'q', m⟩) :: rest)
      = ⟨Outcome.returned none,
         Action.readEvent :: (clear_area pos nl ++ cleanup)⟩ := by
  have hq : selectLoop title options pos nl idx
      (Except.ok (Event.Key ⟨KeyCode.Char 'q', m⟩) :: rest)
      = ⟨Outcome.returned none,
         Action.readEvent :: (clear_area pos nl ++ cleanup)⟩ := by
    simp [selectLoop, eventCmd, handleKey, hm]
  have he : selectLoop title options pos nl idx
      (Except.ok (Event.Key ⟨KeyCode.Esc, m2⟩) :: rest2)
      = ⟨Outcome.returned none,
         Action.readEvent :: (clear_area pos nl ++ cleanup)⟩ := by
    simp [selectLoop, eventCmd, handleKey]
  exact ⟨hq.trans he.symm, hq⟩

/-- C4 witness: a concrete bare-q cancellation returns Cancelled with the
clear-then-release trace. -/
theorem C4_cancel_equivalence_witness :
    selectLoop "t" ["a"] (0, 0) 2 0
        [Except.ok (Event.Key ⟨KeyCode.Char 'q', ⟨0⟩⟩)]
      = ⟨Outcome.returned none,
         Action.readEvent :: (clear_area (0, 0) 2 ++ cleanup)⟩ :=
  (C4_cancel_equivalence "t" ["a"] (0, 0) 2 0 ⟨0⟩ ⟨0⟩ (by decide) [] []).2

/-- C6: every rendered frame puts the title on the anchor row and option i
on row anchor + 1 + i (row addresses in 16-bit arithmetic, as the source
computes them); exactly one option line carries the two-character marker,
at the current highlighted_index, and every other option line carries the
two-blank prefix. -/
theorem C6_render_consistency (pos : Nat × Nat) (title : String)
    (options : List String) (idx : Nat) (hidx : idx < options.length) :
    draw_menu pos title options idx
      = Action.moveTo 0 pos.2 :: Action.print title ::
          ((((List.range options.length).map fun i =>
              [Action.moveTo 0 ((pos.2 + 1 + i) % 65536),
               Action.print (if i = idx then "> " else "  "),
               Action.print (options.getD i "")]).flatten)
            ++ [Action.flush])
  ∧ ((List.range options.length).countP
        fun i => (if i = idx then "> " else "  ") == "> ") = 1 := by
  constructor
  · simp only [draw_menu]
    rw [drawOptions_eq idx options ((pos.2 + 1) % 65536) 0
      (Nat.mod_lt _ (by omega))]
    simp only [Nat.mod_add_mod, Nat.zero_add]
  · have hcong : ∀ i ∈ List.range options.length,
        (((if i = idx then "> " else "  ") == "> ") = true ↔ (i == idx) = true) := by
      intro i _
      by_cases h : i = idx
      · subst h
        simp
      · simp [h]
    rw [List.countP_congr hcong]
    exact countP_beq_range hidx

/-- C6 witness: the frame for options [a, b] with index 1 at anchor row 5
renders the title at row 5, the unmarked option a at row 6 and the marked
option b at row 7. -/
theorem C6_render_consistency_witness :
    draw_menu (0, 5) "T" ["a", "b"] 1
      = [Action.moveTo 0 5, Action.print "T",
         Action.moveTo 0 6, Action.print "  ", Action.print "a",
         Action.moveTo 0 7, Action.print "> ", Action.print "b",
         Action.flush] := by
  have h := (C6_render_consistency (0, 5) "T" ["a", "b"] 1 (by decide)).1
  simpa [List.range_succ] using h

/-- C7 counterexample: a failed read does not propagate an error value to
the caller; the modelled run ends in the panic of the expect call (which
kills the whole process), not in any returned value. -/
theorem C7_counterexample :
    (select_option "t" ["a"] (0, 0) [Except.error "io failure"]).outcome
      = Outcome.panicked "Failed to read event" := by
  decide

/-- C7 (amended): every failure to read an input event aborts the current
select call immediately: the loop performs no retry (the remaining input
stream is ignored), the run ends in the panic of the expect call, which
terminates the whole process rather than returning an error to the caller,
and the guard is not released on the way out. -/
theorem C7_read_error_panics (title : String) (options : List String)
    (pos : Nat × Nat) (nl idx : Nat) (msg : String)
    (rest : List (Except String Event)) (h : options ≠ []) :
    selectLoop title options pos nl idx (Except.error msg :: rest)
      = ⟨Outcome.panicked "Failed to read event", [Action.readEvent]⟩
  ∧ (select_option title options pos (Except.error msg :: rest)).outcome
      = Outcome.panicked "Failed to read event"
  ∧ (select_option title options pos (Except.error msg :: rest)).trace.count
      Action.disableRaw = 0 := by
  obtain ⟨o, os, rfl⟩ := List.exists_cons_of_ne_nil h
  refine ⟨rfl, ?_, ?_⟩
  · simp [select_option, selectLoop]
  · simp [select_option, selectLoop, List.count_cons, List.count_append,
      clear_area_count_disableRaw, draw_menu_count_disableRaw]

/-- C7 witness: a concrete failing read panics with the expect message. -/
theorem C7_read_error_panics_witness :
    (select_option "t" ["a"] (0, 0) [Except.error "io"]).outcome
      = Outcome.panicked "Failed to read event" :=
  (C7_read_error_panics "t" ["a"] (0, 0) 2 0 "io" [] (by decide)).2.1

/-- C8: any key event other than Up, Down, Enter, bare q and Escape —
including q pressed with a modifier — leaves highlighted_index unchanged
and neither terminates the loop nor raises an error: the run continues on
the remaining input from the same index, after one redraw. -/
theorem C8_other_keys_ignored (title : String) (options : List String)
    (pos : Nat × Nat) (nl idx : Nat) (k : KeyEvent)
    (h1 : k.code ≠ KeyCode.Up) (h2 : k.code ≠ KeyCode.Down)
    (h3 : k.code ≠ KeyCode.Enter) (h4 : k.code ≠ KeyCode.Esc)
    (h5 : k.code = KeyCode.Char 'q' → k.modifiers.is_empty = false)
    (rest : List (Except String Event)) :
    handleKey options idx k = LoopCmd.cont idx
  ∧ (selectLoop title options pos nl idx
        (Except.ok (Event.Key k) :: rest)).outcome
      = (selectLoop title options pos nl idx rest).outcome
  ∧ (selectLoop title options pos nl idx
        (Except.ok (Event.Key k) :: rest)).trace
      = Action.readEvent ::
          (clear_area pos nl
            ++ (draw_menu pos title options idx
              ++ (selectLoop title options pos nl idx rest).trace)) := by
  have hk : handleKey options idx k = LoopCmd.cont idx := by
    rcases k with ⟨code, m⟩
    cases code with
    | Up => exact absurd rfl h1
    | Down => exact absurd rfl h2
    | Enter => exact absurd rfl h3
    | Esc => exact absurd rfl h4
    | Other => rfl
    | Char c =>
        simp only [handleKey]
        by_cases hq : c = 'q'
        · subst hq
          have hne := h5 rfl
          simp [hne]
        · have hne : (c == 'q') = false := by simp [hq]
          simp [hne]
  refine ⟨hk, ?_, ?_⟩ <;> simp [selectLoop, eventCmd, hk]

/-- C8 witness: q pressed with a modifier bit set is ignored. -/
theorem C8_other_keys_ignored_witness :
    handleKey ["a"] 0 ⟨KeyCode.Char 'q', ⟨1⟩⟩ = LoopCmd.cont 0 :=
  (C8_other_keys_ignored "t" ["a"] (0, 0) 2 0 ⟨KeyCode.Char 'q', ⟨1⟩⟩
    (by decide) (by decide) (by decide) (by decide)
    (fun _ => by decide) []).1

/-- C9: the empty-list result and the cancellation result are the same
value (None): a caller cannot distinguish a user cancellation from a call
made with an empty option list. -/
theorem C9_none_indistinguishable (title1 : String) (pos1 : Nat × Nat)
    (inputs1 : List (Except String Event)) (title2 : String)
    (options : List String) (pos2 : Nat × Nat) (m : KeyModifiers)
    (rest : List (Except String Event)) (h : options ≠ [])
    (hm : m.is_empty = true) :
    (select_option title1 [] pos1 inputs1).outcome = Outcome.returned none
  ∧ (select_option title2 options pos2
        (Except.ok (Event.Key ⟨KeyCode.Char 'q', m⟩) :: rest)).outcome
      = Outcome.returned none
  ∧ (select_option title1 [] pos1 inputs1).outcome
      = (select_option title2 options pos2
          (Except.ok (Event.Key ⟨KeyCode.Char 'q', m⟩) :: rest)).outcome := by
  obtain ⟨o, os, rfl⟩ := List.exists_cons_of_ne_nil h
  have hq : (select_option title2 (o :: os) pos2
      (Except.ok (Event.Key ⟨KeyCode.Char 'q', m⟩) :: rest)).outcome
      = Outcome.returned none := by
    simp [select_option, selectLoop, eventCmd, handleKey, hm]
  exact ⟨rfl, hq, hq.symm⟩

/-- C9 witness: concrete empty-list call and concrete q cancellation return
the same value. -/
theorem C9_none_indistinguishable_witness :
    (select_option "t" [] (0, 0) []).outcome
      = (select_option "u" ["a"] (0, 0)
          [Except.ok (Event.Key ⟨KeyCode.Char 'q', ⟨0⟩⟩)]).outcome :=
  (C9_none_indistinguishable "t" (0, 0) [] "u" ["a"] (0, 0) ⟨0⟩ []
    (by decide) (by decide)).2.2

/-- C10 counterexample: a list of 65535 options has fewer than 65536
entries, yet the computed region is 0 lines, not 1 + 65535: the whole sum
1 + len as u16 wraps, not only the truncated length. -/
theorem C10_counterexample :
    num_lines (List.replicate 65535 "x") = 0
  ∧ (List.replicate 65535 "x").length = 65535
  ∧ 65535 < 65536 := by
  refine ⟨?_, ?_, by omega⟩
  · rw [num_lines, List.length_replicate]
  · rw [List.length_replicate]

/-- C10 (amended): the cleared and redrawn region spans
(1 + len(options)) mod 2^16 lines — exactly 1 + len(options) lines for
every list of at most 65534 entries, wrapping modulo 2^16 beyond that (so
a list of exactly 65535 entries clears 0 lines); the clear loop issues one
clear-line action per line of the region. -/
theorem C10_region_wraps (options : List String) :
    num_lines options = (1 + options.length) % 65536
  ∧ (options.length ≤ 65534 → num_lines options = 1 + options.length)
  ∧ (∀ pos : Nat × Nat,
      (clear_area pos (num_lines options)).count Action.clearLine
        = (1 + options.length) % 65536) := by
  have h1 : num_lines options = (1 + options.length) % 65536 := by
    simp only [num_lines]
    omega
  refine ⟨h1, ?_, ?_⟩
  · intro hle
    rw [h1, Nat.mod_eq_of_lt (by omega)]
  · intro pos
    rw [clear_area_count_clearLine, h1]

/-- C10 witness: a one-element list clears exactly two lines. -/
theorem C10_region_wraps_witness :
    num_lines ["a"] = 1 + (["a"] : List String).length :=
  (C10_region_wraps ["a"]).2.1 (by decide)

end Xrpick
